import Mathlib

/-!
Shallow embedding of the ERP-Excel-Insight-Analyst front end:
the configuration service (`src/services/configService.ts`), its file-system
sync layer (`src/services/fileSystemService.ts`), and the AI analysis request
pipeline (`analyzeDataWithGemini` in the Gemini service module).

JavaScript dynamic values that flow through `JSON.parse`/`JSON.stringify`
are modelled by the inductive `JValue`; a `localStorage` slot holding the
JSON text of a value `v` is modelled as `some v`, an absent slot as `none`.
-/

namespace ErpInsight

/-- JSON values (the dynamic documents handled by the config service). -/
inductive JValue where
  | null : JValue
  | bool (b : Bool) : JValue
  | num (n : Int) : JValue
  | str (s : String) : JValue
  | arr (elems : List JValue) : JValue
  | obj (fields : List (String × JValue)) : JValue

/-- JavaScript truthiness of a JSON value (`!data` tests in the source).
`null`, `false`, `0` and `""` are falsy; arrays and objects are always
truthy (even when empty). -/
def jTruthy : JValue → Bool
  | .null => false
  | .bool b => b
  | .num n => n != 0
  | .str s => s != ""
  | .arr _ => true
  | .obj _ => true

/-- First-key lookup in an association list (property access on an object). -/
def lookupKey {α : Type} : List (String × α) → String → Option α
  | [], _ => none
  | (k, v) :: rest, key => if k = key then some v else lookupKey rest key

/-- JavaScript property access `data.k`: defined on objects, `undefined`
(here `none`) on every other value and on a missing key. -/
def jGet : JValue → String → Option JValue
  | .obj fields, key => lookupKey fields key
  | _, _ => none

/-- Truthiness of a possibly-`undefined` value (`data.groups` tests):
`undefined` is falsy. -/
def jTruthyOpt : Option JValue → Bool
  | none => false
  | some v => jTruthy v

/-! ## Configuration records (`types.ts`, as constructed in the config manager)

A template carries an identifier, a name, a description, a system
instruction and a custom prompt; a group carries an identifier, a name, a
description and an ordered list of template identifiers. -/

structure AnalysisTemplate where
  id : String
  name : String
  description : String
  systemInstruction : String
  customPrompt : String
deriving DecidableEq

structure AnalysisGroup where
  id : String
  name : String
  description : String
  templateIds : List String
deriving DecidableEq

/-- The two `localStorage` slots (`app_templates` / `app_groups`) holding the
parsed template and group arrays.  CRUD always writes well-formed arrays, so
on the CRUD paths the slots are modelled at the typed level. -/
structure Store where
  templates : List AnalysisTemplate
  groups : List AnalysisGroup
deriving DecidableEq

/-- JavaScript `Array.prototype.findIndex`: index of the first element
satisfying the predicate (`-1`, here `none`, when there is none). -/
def findIndex {α : Type} (p : α → Bool) : List α → Option Nat
  | [] => none
  | x :: xs => if p x then some 0 else (findIndex p xs).map (· + 1)

namespace ConfigService

/-- Source `getTemplates`: load the stored template list. -/
def getTemplates (s : Store) : List AnalysisTemplate := s.templates

/-- Source `getGroups`: load the stored group list. -/
def getGroups (s : Store) : List AnalysisGroup := s.groups

/-- Source `saveTemplate`: replace the first template with the same id in place,
or push the new template at the end. -/
def saveTemplate (s : Store) (tmpl : AnalysisTemplate) : Store :=
  let list := s.templates
  match findIndex (fun t => t.id == tmpl.id) list with
  | some index => { s with templates := list.set index tmpl }
  | none => { s with templates := list ++ [tmpl] }

/-- Source `deleteTemplate`: keep exactly the templates whose id differs. -/
def deleteTemplate (s : Store) (id : String) : Store :=
  { s with templates := s.templates.filter (fun t => t.id != id) }

/-- Source `saveGroup`: replace the first group with the same id in place,
or push the new group at the end. -/
def saveGroup (s : Store) (group : AnalysisGroup) : Store :=
  let list := s.groups
  match findIndex (fun g => g.id == group.id) list with
  | some index => { s with groups := list.set index group }
  | none => { s with groups := list ++ [group] }

/-- Source `deleteGroup`: keep exactly the groups whose id differs. -/
def deleteGroup (s : Store) (id : String) : Store :=
  { s with groups := s.groups.filter (fun g => g.id != id) }

end ConfigService

/-! ## Raw (JSON level) view of the config storage

`importConfigData` stores whatever dynamic values the imported document
carries, so the storage slots are modelled as raw JSON values here:
`none` is an absent slot, `some v` a slot whose text parses to `v`. -/

structure RawStore where
  templates : Option JValue
  groups : Option JValue

/-- The `load` helper: `item ? JSON.parse(item) : []`. An absent slot reads
as the empty array. -/
def loadVal (slot : Option JValue) : JValue := slot.getD (.arr [])

namespace ConfigService

/-- Source `getTemplates` on the raw storage. -/
def getTemplatesRaw (s : RawStore) : JValue := loadVal s.templates

/-- Source `getGroups` on the raw storage. -/
def getGroupsRaw (s : RawStore) : JValue := loadVal s.groups

/-- Source `exportConfigData`: the document `{groups, templates, exportedAt,
version: '3.0'}` built from the current storage (`now` is the
`new Date().toISOString()` timestamp). -/
def exportConfigData (s : RawStore) (now : String) : JValue :=
  .obj [("groups", getGroupsRaw s),
        ("templates", getTemplatesRaw s),
        ("exportedAt", .str now),
        ("version", .str "3.0")]

/-- Source `importConfigData`: throw on a falsy document, then store the `groups`
and `templates` fields when they are truthy, with no shape validation. -/
def importConfigData (s : RawStore) (data : JValue) : Except String RawStore :=
  if jTruthy data = false then .error "Invalid config file"
  else
    let s1 := match jGet data "groups" with
      | some g => if jTruthy g then { s with groups := some g } else s
      | none => s
    let s2 := match jGet data "templates" with
      | some t => if jTruthy t then { s1 with templates := some t } else s1
      | none => s1
    .ok s2

end ConfigService

/-! ## File-system service (`src/services/fileSystemService.ts`)

The app only ever uses the user-granted root directory and one level of
named subdirectories, so a directory handle is modelled as the root's
files plus its named subdirectories' files.  File contents are the parsed
JSON documents they hold. -/

structure RootDir where
  files : List (String × JValue)
  subdirs : List (String × List (String × JValue))

/-- The module-level `rootHandle` variable: `none` until a directory is
selected or restored. -/
structure FS where
  handle : Option RootDir

/-- Insert or overwrite the entry for a key, keeping the first match in
place (creating a file/subdirectory with `{ create: true }`). -/
def upsert {α : Type} : List (String × α) → String → α → List (String × α)
  | [], key, v => [(key, v)]
  | (k, w) :: rest, key, v =>
      if k = key then (key, v) :: rest else (k, w) :: upsert rest key v

namespace FileSystemService

/-- Source `isHandleReady`: whether the root handle is set. -/
def isHandleReady (fs : FS) : Bool := fs.handle.isSome

/-- Source `writeBinaryFile`: resolve the target directory (the root when
`dirName` is empty, otherwise the named subdirectory, created on demand),
then create/overwrite the file; with no root handle the call returns
without writing. -/
def writeBinaryFile (fs : FS) (dirName fileName : String) (content : JValue) : FS :=
  match fs.handle with
  | none => fs
  | some root =>
    if dirName = "" then
      { handle := some { root with files := upsert root.files fileName content } }
    else
      let sub := ((lookupKey root.subdirs dirName).getD [])
      { handle := some
          { root with subdirs := upsert root.subdirs dirName (upsert sub fileName content) } }

/-- Source `readAllFiles`: list the (name, content) pairs of the files in the
target directory; the empty list when no root handle is set. -/
def readAllFiles (fs : FS) (dirName : String) : List (String × JValue) :=
  match fs.handle with
  | none => []
  | some root =>
    if dirName = "" then root.files
    else (lookupKey root.subdirs dirName).getD []

end FileSystemService

namespace ConfigService

/-- The fixed config file name `EXCEL_AI.json`. -/
def CONFIG_FILENAME : String := "EXCEL_AI.json"

/-- Source `syncToDisk`: no-op returning `false` without a directory handle;
otherwise serialize `exportConfigData()` and write it to `EXCEL_AI.json`
in the root directory, returning `true`. -/
def syncToDisk (s : RawStore) (fs : FS) (now : String) : Bool × FS :=
  if FileSystemService.isHandleReady fs = false then (false, fs)
  else (true, FileSystemService.writeBinaryFile fs "" CONFIG_FILENAME (exportConfigData s now))

/-- Source `loadAutoConfig`: no-op returning `false` without a directory handle;
otherwise look for `EXCEL_AI.json` among the root files and import it,
returning `false` (state unchanged) when the file is absent or the import
throws. -/
def loadAutoConfig (s : RawStore) (fs : FS) : Bool × RawStore :=
  if FileSystemService.isHandleReady fs = false then (false, s)
  else
    match (FileSystemService.readAllFiles fs "").find? (fun f => f.1 == CONFIG_FILENAME) with
    | some file =>
        match importConfigData s file.2 with
        | .ok s1 => (true, s1)
        | .error _ => (false, s)
    | none => (false, s)

end ConfigService

/-! ## Gemini analysis service (`analyzeDataWithGemini`)

A parsed spreadsheet row is a JavaScript object: an ordered association
list of column name / cell value pairs. -/

def ExcelDataRow : Type := List (String × JValue)

namespace Gemini

/-- Constant `sampleSize = 40`: the bound on the number of rows sent to the model. -/
def sampleSize : Nat := 40

/-- Expression `data.slice(0, sampleSize)`: the data sample embedded in the prompt. -/
def dataSample (data : List ExcelDataRow) : List ExcelDataRow :=
  data.take sampleSize

/-- Expression `Object.keys(dataSample[0] || \x7b\x7d).join(', ')`: the column headers taken
from the first row (empty for an empty dataset). -/
def headers (data : List ExcelDataRow) : String :=
  String.intercalate ", " (((dataSample data).headD ([] : ExcelDataRow)).map Prod.fst)

/-- JavaScript `String.prototype.includes`: `sub` occurs contiguously in
`msg`. -/
def jsIncludes (msg sub : String) : Bool :=
  (List.range (msg.toList.length + 1)).any
    (fun i => decide ((msg.toList.drop i).take sub.toList.length = sub.toList))

/-- The error-message substrings that trigger the single retry. -/
def retrySubstrings : List String := ["500", "xhr", "fetch", "Rpc"]

/-- The retry guard `err.message && (err.message.includes('500') || ...)`:
a truthy (non-empty) message containing one of the retry substrings. -/
def isRetryableMessage (msg : String) : Bool :=
  msg != "" && retrySubstrings.any (fun sub => jsIncludes msg sub)

/-- The retry wrapper around `performRequest`: on a first failure with a
retryable message the request is re-attempted exactly once (after the fixed
delay) and the second outcome is final; any other first failure is
re-thrown unchanged.  The second component counts the attempts made. -/
def requestWithRetry {α : Type} (first second : Except String α) :
    Except String α × Nat :=
  match first with
  | .ok r => (.ok r, 1)
  | .error msg =>
      if isRetryableMessage msg then (second, 2) else (.error msg, 1)

/-- The tail of `analyzeDataWithGemini`: `response.text` present (and
non-empty) parses into the returned value, otherwise the call throws.
A successful response is modelled by the parsed JSON of its text. -/
def responseToResult (text : Option JValue) : Except String JValue :=
  match text with
  | some v => .ok v
  | none => .error "No response generated from AI."

/-- Source `analyzeDataWithGemini`, composed from the retry wrapper and the
response check; `first`/`second` are the outcomes the model endpoint
would give the two possible attempts. -/
def analyzeDataWithGemini (first second : Except String (Option JValue)) :
    Except String JValue × Nat :=
  match requestWithRetry first second with
  | (.ok text, n) => (responseToResult text, n)
  | (.error e, n) => (.error e, n)

/-! ### The structured response schema (`analysisSchema`) -/

/-- The `type` enum of a chart descriptor. -/
def chartTypes : List String := ["bar", "line", "area", "pie", "scatter", "radar"]

/-- Whether a field of an object is present with STRING type. -/
def strField (fields : List (String × JValue)) (key : String) : Bool :=
  match lookupKey fields key with
  | some (.str _) => true
  | _ => false

/-- Conformance to the chart item schema: an OBJECT with required STRING
fields `id`, `title`, `xAxisKey`, `dataKey`, `description` and a `type`
drawn from the chart enum. -/
def chartConforms (v : JValue) : Bool :=
  match v with
  | .obj fields =>
      strField fields "id" && strField fields "title" &&
      (match lookupKey fields "type" with
       | some (.str t) => chartTypes.contains t
       | _ => false) &&
      strField fields "xAxisKey" && strField fields "dataKey" &&
      strField fields "description"
  | _ => false

/-- Whether a value is a STRING. -/
def isStringVal : JValue → Bool
  | .str _ => true
  | _ => false

/-- Conformance to `analysisSchema`: an OBJECT with a required STRING
`summary`, a required ARRAY of STRINGs `keyInsights`, and a required ARRAY
`charts` of chart descriptors. -/
def analysisConforms (v : JValue) : Bool :=
  match v with
  | .obj fields =>
      (match lookupKey fields "summary" with
       | some (.str _) => true
       | _ => false) &&
      (match lookupKey fields "keyInsights" with
       | some (.arr ks) => ks.all isStringVal
       | _ => false) &&
      (match lookupKey fields "charts" with
       | some (.arr cs) => cs.all chartConforms
       | _ => false)
  | _ => false

end Gemini

/-! ## Helper lemmas -/

theorem findIndex_some_lt {α : Type} {p : α → Bool} :
    ∀ {l : List α} {i : Nat}, findIndex p l = some i → i < l.length := by
  intro l
  induction l with
  | nil => intro i h; simp [findIndex] at h
  | cons x xs ih =>
      intro i h
      by_cases hx : p x = true
      · simp [findIndex, hx] at h
        simp only [List.length_cons]
        omega
      · simp [findIndex, hx] at h
        obtain ⟨j, hj, hij⟩ := h
        have := ih hj
        simp only [List.length_cons]
        omega

theorem findIndex_isSome_of_exists {α : Type} {p : α → Bool} :
    ∀ {l : List α}, (∃ x ∈ l, p x = true) → ∃ i, findIndex p l = some i := by
  intro l
  induction l with
  | nil => rintro ⟨x, hx, _⟩; simp at hx
  | cons y ys ih =>
      rintro ⟨x, hx, hpx⟩
      by_cases hy : p y = true
      · exact ⟨0, by simp [findIndex, hy]⟩
      · rcases List.mem_cons.mp hx with rfl | hx2
        · exact absurd hpx hy
        · obtain ⟨j, hj⟩ := ih ⟨x, hx2, hpx⟩
          exact ⟨j + 1, by simp [findIndex, hy, hj]⟩

theorem mem_set_self {α : Type} :
    ∀ (l : List α) (i : Nat) (a : α), i < l.length → a ∈ l.set i a := by
  intro l
  induction l with
  | nil => intro i a h; simp at h
  | cons x xs ih =>
      intro i a h
      cases i with
      | zero => simp
      | succ j =>
          simp only [List.set_cons_succ, List.mem_cons]
          exact Or.inr (ih j a (by simp at h; omega))

theorem findIndex_map_set_eq {α β : Type} {f : α → β} {p : α → Bool} {a : α}
    (hp : ∀ x, p x = true → f x = f a) :
    ∀ (l : List α) (i : Nat), findIndex p l = some i → (l.set i a).map f = l.map f := by
  intro l
  induction l with
  | nil => intro i h; simp [findIndex] at h
  | cons x xs ih =>
      intro i h
      by_cases hx : p x = true
      · simp [findIndex, hx] at h
        subst h
        simp [hp x hx]
      · simp [findIndex, hx] at h
        obtain ⟨j, hj, hij⟩ := h
        subst hij
        simp [ih j hj]

theorem lookupKey_upsert {α : Type} :
    ∀ (l : List (String × α)) (key : String) (v : α),
      lookupKey (upsert l key v) key = some v := by
  intro l
  induction l with
  | nil => intro key v; simp [upsert, lookupKey]
  | cons kv rest ih =>
      intro key v
      obtain ⟨k, w⟩ := kv
      by_cases hk : k = key
      · simp [upsert, hk, lookupKey]
      · simp [upsert, hk, lookupKey, ih]

/-! ## Claims about the config service CRUD -/

/-- C3: Templates and groups CRUD round-trips through storage: after
`saveTemplate t` the list from `getTemplates` contains `t`; after
`deleteTemplate id` the list from `getTemplates` has no template with
identifier `id`; and the same holds for groups via `saveGroup`,
`getGroups` and `deleteGroup`. -/
theorem crud_roundtrip (s : Store) (t : AnalysisTemplate) (g : AnalysisGroup)
    (id1 id2 : String) :
    t ∈ ConfigService.getTemplates (ConfigService.saveTemplate s t) ∧
    (∀ u ∈ ConfigService.getTemplates (ConfigService.deleteTemplate s id1), u.id ≠ id1) ∧
    g ∈ ConfigService.getGroups (ConfigService.saveGroup s g) ∧
    (∀ w ∈ ConfigService.getGroups (ConfigService.deleteGroup s id2), w.id ≠ id2) := by
  refine ⟨?_, ?_, ?_, ?_⟩
  · simp only [ConfigService.saveTemplate, ConfigService.getTemplates]
    cases hf : findIndex (fun u => u.id == t.id) s.templates with
    | some i => simpa using mem_set_self s.templates i t (findIndex_some_lt hf)
    | none => simp
  · intro u hu
    simp only [ConfigService.deleteTemplate, ConfigService.getTemplates] at hu
    have := (List.mem_filter.mp hu).2
    simpa [bne_iff_ne] using this
  · simp only [ConfigService.saveGroup, ConfigService.getGroups]
    cases hf : findIndex (fun w => w.id == g.id) s.groups with
    | some i => simpa using mem_set_self s.groups i g (findIndex_some_lt hf)
    | none => simp
  · intro w hw
    simp only [ConfigService.deleteGroup, ConfigService.getGroups] at hw
    have := (List.mem_filter.mp hw).2
    simpa [bne_iff_ne] using this

/-- C10: `deleteTemplate id` removes exactly the templates whose identifier
is `id` (membership characterization), keeps the survivors in their
original relative order (sublist), and leaves the groups list untouched;
symmetrically `deleteGroup id` leaves the templates list untouched. -/
theorem delete_frame (s : Store) (id : String) :
    (∀ u, u ∈ ConfigService.getTemplates (ConfigService.deleteTemplate s id) ↔
       u ∈ ConfigService.getTemplates s ∧ u.id ≠ id) ∧
    List.Sublist (ConfigService.getTemplates (ConfigService.deleteTemplate s id))
      (ConfigService.getTemplates s) ∧
    ConfigService.getGroups (ConfigService.deleteTemplate s id) = ConfigService.getGroups s ∧
    ConfigService.getTemplates (ConfigService.deleteGroup s id) = ConfigService.getTemplates s ∧
    (∀ w, w ∈ ConfigService.getGroups (ConfigService.deleteGroup s id) ↔
       w ∈ ConfigService.getGroups s ∧ w.id ≠ id) ∧
    List.Sublist (ConfigService.getGroups (ConfigService.deleteGroup s id))
      (ConfigService.getGroups s) := by
  refine ⟨?_, ?_, rfl, rfl, ?_, ?_⟩
  · intro u
    unfold ConfigService.deleteTemplate ConfigService.getTemplates
    simp [List.mem_filter, bne_iff_ne]
  · exact List.filter_sublist _
  · intro w
    unfold ConfigService.deleteGroup ConfigService.getGroups
    simp [List.mem_filter, bne_iff_ne]
  · exact List.filter_sublist _

/-- C4: last-write-wins identifier uniqueness: on a store whose template
identifiers are pairwise distinct, saving a template whose identifier is
already present replaces the record in place — the identifier list is
unchanged, so the length is preserved and the identifiers stay pairwise
distinct; the same holds for groups. -/
theorem save_last_write_wins (s : Store) (t : AnalysisTemplate) (g : AnalysisGroup)
    (hndT : ((ConfigService.getTemplates s).map AnalysisTemplate.id).Nodup)
    (hndG : ((ConfigService.getGroups s).map AnalysisGroup.id).Nodup)
    (hmemT : t.id ∈ (ConfigService.getTemplates s).map AnalysisTemplate.id)
    (hmemG : g.id ∈ (ConfigService.getGroups s).map AnalysisGroup.id) :
    (ConfigService.getTemplates (ConfigService.saveTemplate s t)).map AnalysisTemplate.id
      = (ConfigService.getTemplates s).map AnalysisTemplate.id ∧
    (ConfigService.getTemplates (ConfigService.saveTemplate s t)).length
      = (ConfigService.getTemplates s).length ∧
    ((ConfigService.getTemplates (ConfigService.saveTemplate s t)).map
       AnalysisTemplate.id).Nodup ∧
    (ConfigService.getGroups (ConfigService.saveGroup s g)).map AnalysisGroup.id
      = (ConfigService.getGroups s).map AnalysisGroup.id ∧
    (ConfigService.getGroups (ConfigService.saveGroup s g)).length
      = (ConfigService.getGroups s).length ∧
    ((ConfigService.getGroups (ConfigService.saveGroup s g)).map AnalysisGroup.id).Nodup := by
  obtain ⟨u, hu, huid⟩ := List.mem_map.mp hmemT
  obtain ⟨w, hw, hwid⟩ := List.mem_map.mp hmemG
  obtain ⟨i, hi⟩ := findIndex_isSome_of_exists
    (p := fun x => x.id == t.id) (l := s.templates) ⟨u, hu, by simpa using huid⟩
  obtain ⟨j, hj⟩ := findIndex_isSome_of_exists
    (p := fun x => x.id == g.id) (l := s.groups) ⟨w, hw, by simpa using hwid⟩
  have hmapT : (s.templates.set i t).map AnalysisTemplate.id
      = s.templates.map AnalysisTemplate.id :=
    findIndex_map_set_eq (fun x hx => by simpa using hx) s.templates i hi
  have hmapG : (s.groups.set j g).map AnalysisGroup.id
      = s.groups.map AnalysisGroup.id :=
    findIndex_map_set_eq (fun x hx => by simpa using hx) s.groups j hj
  have hsaveT : ConfigService.saveTemplate s t = { s with templates := s.templates.set i t } := by
    simp only [ConfigService.saveTemplate]
    rw [hi]
  have hsaveG : ConfigService.saveGroup s g = { s with groups := s.groups.set j g } := by
    simp only [ConfigService.saveGroup]
    rw [hj]
  refine ⟨?_, ?_, ?_, ?_, ?_, ?_⟩
  · rw [hsaveT]; exact hmapT
  · rw [hsaveT]; simp [ConfigService.getTemplates]
  · rw [hsaveT]; exact hmapT ▸ hndT
  · rw [hsaveG]; exact hmapG
  · rw [hsaveG]; simp [ConfigService.getGroups]
  · rw [hsaveG]; exact hmapG ▸ hndG

/-- Witness for C4 at a concrete store: saving a template and a group whose
identifiers are already present keeps the identifier lists unchanged. -/
theorem save_last_write_wins_witness :
    (ConfigService.getTemplates (ConfigService.saveTemplate
        ⟨[⟨"t1", "Old", "", "sys", ""⟩], [⟨"g1", "G", "", []⟩]⟩
        ⟨"t1", "New", "d", "sys2", "p"⟩)).map AnalysisTemplate.id
      = ["t1"] ∧
    (ConfigService.getGroups (ConfigService.saveGroup
        ⟨[⟨"t1", "Old", "", "sys", ""⟩], [⟨"g1", "G", "", []⟩]⟩
        ⟨"g1", "G2", "d", ["t1"]⟩)).map AnalysisGroup.id
      = ["g1"] := by
  have h := save_last_write_wins
    ⟨[⟨"t1", "Old", "", "sys", ""⟩], [⟨"g1", "G", "", []⟩]⟩
    ⟨"t1", "New", "d", "sys2", "p"⟩ ⟨"g1", "G2", "d", ["t1"]⟩
    (by decide) (by decide) (by decide) (by decide)
  exact ⟨h.1, h.2.2.2.1⟩

/-- C2 counterexample: an object document whose `groups` field is a string
(not a well-formed array of records) is NOT rejected — `importConfigData`
succeeds and overwrites the stored groups slot with the string, so the
stored groups list does not stay as it was. -/
theorem importConfig_counterexample :
    ConfigService.importConfigData ⟨some (.arr []), some (.arr [])⟩
        (.obj [("groups", .str "junk")])
      = .ok ⟨some (.arr []), some (.str "junk")⟩ ∧
    ConfigService.getGroupsRaw ⟨some (.arr []), some (.str "junk")⟩
      ≠ ConfigService.getGroupsRaw ⟨some (.arr []), some (.arr [])⟩ := by
  constructor
  · rfl
  · exact fun h => JValue.noConfusion h

/-- On a truthy document, `importConfigData` succeeds and each slot is the
field value when that field is truthy, the old slot otherwise. -/
theorem importConfigData_ok (s : RawStore) (d : JValue) (hd : jTruthy d = true) :
    ConfigService.importConfigData s d = .ok
      { templates :=
          (match jGet d "templates" with
           | some t => if jTruthy t then some t else s.templates
           | none => s.templates),
        groups :=
          (match jGet d "groups" with
           | some g => if jTruthy g then some g else s.groups
           | none => s.groups) } := by
  simp only [ConfigService.importConfigData, hd]
  cases jGet d "groups" with
  | none =>
      cases jGet d "templates" with
      | none => simp
      | some t => cases htv : jTruthy t <;> simp [htv]
  | some g =>
      cases jGet d "templates" with
      | none => cases hgv : jTruthy g <;> simp [hgv]
      | some t => cases hgv : jTruthy g <;> cases htv : jTruthy t <;> simp [hgv, htv]

/-- C2 (amended): `importConfigData` rejects with an error exactly the
falsy documents (`null`, `false`, `0`, `""`), leaving the stored state
untouched; every truthy document is accepted, a truthy `groups` or
`templates` field overwrites the corresponding slot verbatim with no shape
validation, and an absent or falsy field leaves its slot unchanged. -/
theorem importConfig_only_falsy_rejected (s : RawStore) (d : JValue) :
    (jTruthy d = false → ConfigService.importConfigData s d = .error "Invalid config file") ∧
    (jTruthy d = true → ∃ s1, ConfigService.importConfigData s d = .ok s1 ∧
      (jTruthyOpt (jGet d "groups") = false → s1.groups = s.groups) ∧
      (jTruthyOpt (jGet d "templates") = false → s1.templates = s.templates) ∧
      (∀ g, jGet d "groups" = some g → jTruthy g = true → s1.groups = some g) ∧
      (∀ t, jGet d "templates" = some t → jTruthy t = true → s1.templates = some t)) := by
  constructor
  · intro hd
    simp [ConfigService.importConfigData, hd]
  · intro hd
    refine ⟨_, importConfigData_ok s d hd, ?_, ?_, ?_, ?_⟩
    · intro hfg
      cases hg : jGet d "groups" with
      | none => simp
      | some g =>
          rw [hg] at hfg
          simp only [jTruthyOpt] at hfg
          simp [hfg]
    · intro hft
      cases ht : jGet d "templates" with
      | none => simp
      | some t =>
          rw [ht] at hft
          simp only [jTruthyOpt] at hft
          simp [hft]
    · intro g hg hgv
      simp [hg, hgv]
    · intro t ht htv
      simp [ht, htv]

/-- Witness for C2 (amended): a null document is rejected; a document with
an (empty, hence truthy) array `groups` field is accepted and overwrites
the groups slot. -/
theorem importConfig_only_falsy_rejected_witness :
    ConfigService.importConfigData ⟨none, none⟩ JValue.null = .error "Invalid config file" ∧
    ∃ s1, ConfigService.importConfigData ⟨none, none⟩ (.obj [("groups", .arr [])]) = .ok s1 ∧
      s1.groups = some (.arr []) := by
  constructor
  · exact (importConfig_only_falsy_rejected ⟨none, none⟩ JValue.null).1 rfl
  · obtain ⟨s1, hok, _, _, hset, _⟩ :=
      (importConfig_only_falsy_rejected ⟨none, none⟩ (.obj [("groups", .arr [])])).2 rfl
    exact ⟨s1, hok, hset (.arr []) rfl rfl⟩

/-- C6: export followed by import is the identity on the stored
configuration: importing the document produced by `exportConfigData`
succeeds and leaves the results of `getTemplates` and `getGroups`
unchanged. -/
theorem export_import_roundtrip (s : RawStore) (now : String) :
    ∃ s1, ConfigService.importConfigData s (ConfigService.exportConfigData s now) = .ok s1 ∧
      ConfigService.getTemplatesRaw s1 = ConfigService.getTemplatesRaw s ∧
      ConfigService.getGroupsRaw s1 = ConfigService.getGroupsRaw s := by
  have hd : jTruthy (ConfigService.exportConfigData s now) = true := rfl
  have hT : jGet (ConfigService.exportConfigData s now) "templates"
      = some (ConfigService.getTemplatesRaw s) := rfl
  have hG : jGet (ConfigService.exportConfigData s now) "groups"
      = some (ConfigService.getGroupsRaw s) := rfl
  refine ⟨_, importConfigData_ok s _ hd, ?_, ?_⟩
  · show ConfigService.getTemplatesRaw _ = _
    simp only [ConfigService.getTemplatesRaw, hT]
    cases htv : jTruthy (loadVal s.templates) <;> simp [htv, loadVal]
  · show ConfigService.getGroupsRaw _ = _
    simp only [ConfigService.getGroupsRaw, hG]
    cases hgv : jTruthy (loadVal s.groups) <;> simp [hgv, loadVal]

/-- C5: with a directory handle set, `syncToDisk` reports success and
writes to the fixed filename `EXCEL_AI.json` in the root directory the
export document — a JSON object whose fields are exactly the stored groups
list, the stored templates list, the `exportedAt` timestamp and the
version tag `'3.0'`. -/
theorem syncToDisk_writes_export (s : RawStore) (fs : FS) (root : RootDir) (now : String)
    (h : fs.handle = some root) :
    (ConfigService.syncToDisk s fs now).1 = true ∧
    lookupKey (FileSystemService.readAllFiles (ConfigService.syncToDisk s fs now).2 "")
        "EXCEL_AI.json" = some (ConfigService.exportConfigData s now) ∧
    ∃ fields, ConfigService.exportConfigData s now = .obj fields ∧
      fields.map Prod.fst = ["groups", "templates", "exportedAt", "version"] ∧
      lookupKey fields "groups" = some (ConfigService.getGroupsRaw s) ∧
      lookupKey fields "templates" = some (ConfigService.getTemplatesRaw s) ∧
      lookupKey fields "exportedAt" = some (.str now) ∧
      lookupKey fields "version" = some (.str "3.0") := by
  have hready : FileSystemService.isHandleReady fs = true := by
    simp [FileSystemService.isHandleReady, h]
  refine ⟨?_, ?_, ?_⟩
  · simp [ConfigService.syncToDisk, hready]
  · simp [ConfigService.syncToDisk, hready, FileSystemService.writeBinaryFile, h,
      FileSystemService.readAllFiles, ConfigService.CONFIG_FILENAME, lookupKey_upsert]
  · exact ⟨_, rfl, rfl, rfl, rfl, rfl, rfl⟩

/-- Witness for C5 at a concrete store and directory handle. -/
theorem syncToDisk_writes_export_witness :
    (ConfigService.syncToDisk ⟨none, none⟩ ⟨some ⟨[], []⟩⟩ "2026-01-01T00:00:00Z").1 = true ∧
    lookupKey (FileSystemService.readAllFiles
        (ConfigService.syncToDisk ⟨none, none⟩ ⟨some ⟨[], []⟩⟩ "2026-01-01T00:00:00Z").2 "")
        "EXCEL_AI.json"
      = some (ConfigService.exportConfigData ⟨none, none⟩ "2026-01-01T00:00:00Z") := by
  have h := syncToDisk_writes_export ⟨none, none⟩ ⟨some ⟨[], []⟩⟩ ⟨[], []⟩
    "2026-01-01T00:00:00Z" rfl
  exact ⟨h.1, h.2.1⟩

/-- C9: with no directory handle set, `loadAutoConfig` and `syncToDisk`
return `false` and leave the stored configuration and the file system
untouched, `readAllFiles` returns the empty list, and `writeBinaryFile`
returns without writing; none of them fails. -/
theorem no_handle_noop (s : RawStore) (fs : FS) (now dirName fileName : String)
    (content : JValue) (h : FileSystemService.isHandleReady fs = false) :
    ConfigService.loadAutoConfig s fs = (false, s) ∧
    ConfigService.syncToDisk s fs now = (false, fs) ∧
    FileSystemService.readAllFiles fs dirName = [] ∧
    FileSystemService.writeBinaryFile fs dirName fileName content = fs := by
  have hnone : fs.handle = none := by
    cases hh : fs.handle with
    | none => rfl
    | some r =>
        simp [FileSystemService.isHandleReady, hh] at h
  refine ⟨?_, ?_, ?_, ?_⟩
  · simp [ConfigService.loadAutoConfig, h]
  · simp [ConfigService.syncToDisk, h]
  · simp [FileSystemService.readAllFiles, hnone]
  · simp [FileSystemService.writeBinaryFile, hnone]

/-- Witness for C9 at a concrete store and empty handle. -/
theorem no_handle_noop_witness :
    ConfigService.loadAutoConfig ⟨some (.arr []), none⟩ ⟨none⟩ = (false, ⟨some (.arr []), none⟩) ∧
    ConfigService.syncToDisk ⟨some (.arr []), none⟩ ⟨none⟩ "t" = (false, ⟨none⟩) ∧
    FileSystemService.readAllFiles ⟨none⟩ "excel_history" = [] ∧
    FileSystemService.writeBinaryFile ⟨none⟩ "" "EXCEL_AI.json" (.arr []) = ⟨none⟩ :=
  no_handle_noop ⟨some (.arr []), none⟩ ⟨none⟩ "t" "excel_history" "EXCEL_AI.json" (.arr []) rfl

/-! ## Claims about the analysis request pipeline -/

theorem retrySubstrings_not_in_empty :
    ∀ sub ∈ Gemini.retrySubstrings, Gemini.jsIncludes "" sub = false := by decide

/-- C1: an error thrown by the first model request whose message contains
one of the network/server substrings (`'500'`, `'xhr'`, `'fetch'`,
`'Rpc'`) causes exactly one re-attempt, and a failure of that second
attempt is propagated to the caller; an error whose message matches none
of the substrings is propagated unchanged with no retry. -/
theorem analyze_retry_policy (second : Except String (Option JValue)) (msg e : String) :
    ((∃ sub ∈ Gemini.retrySubstrings, Gemini.jsIncludes msg sub = true) →
       (Gemini.analyzeDataWithGemini (.error msg) second).2 = 2 ∧
       (second = .error e →
          Gemini.analyzeDataWithGemini (.error msg) second = (.error e, 2))) ∧
    ((∀ sub ∈ Gemini.retrySubstrings, Gemini.jsIncludes msg sub = false) →
       Gemini.analyzeDataWithGemini (.error msg) second = (.error msg, 1)) := by
  constructor
  · rintro ⟨sub, hsub, hinc⟩
    have hmsg : msg ≠ "" := by
      rintro rfl
      rw [retrySubstrings_not_in_empty sub hsub] at hinc
      cases hinc
    have h1 : (msg != "") = true := by simp [hmsg]
    have h2 : Gemini.retrySubstrings.any (fun sub => Gemini.jsIncludes msg sub) = true :=
      List.any_eq_true.mpr ⟨sub, hsub, hinc⟩
    have hr : Gemini.isRetryableMessage msg = true := by
      simp [Gemini.isRetryableMessage, h1, h2]
    constructor
    · simp only [Gemini.analyzeDataWithGemini, Gemini.requestWithRetry, hr, if_pos]
      cases second <;> simp
    · rintro rfl
      simp [Gemini.analyzeDataWithGemini, Gemini.requestWithRetry, hr]
  · intro hall
    have hany : Gemini.retrySubstrings.any (fun sub => Gemini.jsIncludes msg sub) = false :=
      List.any_eq_false.mpr (by simpa using hall)
    have hr : Gemini.isRetryableMessage msg = false := by
      simp [Gemini.isRetryableMessage, hany]
    simp [Gemini.analyzeDataWithGemini, Gemini.requestWithRetry, hr]

/-- Witness for C1: a fetch failure is retried and the second failure is
surfaced; a non-network error is surfaced unchanged after one attempt. -/
theorem analyze_retry_policy_witness :
    Gemini.analyzeDataWithGemini (.error "TypeError: Failed to fetch") (.error "boom")
      = (.error "boom", 2) ∧
    Gemini.analyzeDataWithGemini (.error "quota exceeded") (.ok (some (.str "x")))
      = (.error "quota exceeded", 1) := by
  constructor
  · exact ((analyze_retry_policy (.error "boom") "TypeError: Failed to fetch" "boom").1
      ⟨"fetch", by decide, by decide⟩).2 rfl
  · exact (analyze_retry_policy (.ok (some (.str "x"))) "quota exceeded" "e").2 (by decide)

namespace Gemini

/-- The shape the claim ascribes to a successful analysis result: a JSON
object with a summary string, a list of insight strings, and chart
descriptors carrying id, title, a chart type from the enum, an x-axis key,
a data key and a description. -/
def analysisShapeSpec (v : JValue) : Prop :=
  ∃ fields, v = .obj fields ∧
    (∃ s, lookupKey fields "summary" = some (.str s)) ∧
    (∃ ks, lookupKey fields "keyInsights" = some (.arr ks) ∧
       ∀ k ∈ ks, ∃ s, k = .str s) ∧
    (∃ cs, lookupKey fields "charts" = some (.arr cs) ∧
       ∀ c ∈ cs, ∃ cf, c = .obj cf ∧
         (∃ x, lookupKey cf "id" = some (.str x)) ∧
         (∃ x, lookupKey cf "title" = some (.str x)) ∧
         (∃ ty, lookupKey cf "type" = some (.str ty) ∧ ty ∈ chartTypes) ∧
         (∃ x, lookupKey cf "xAxisKey" = some (.str x)) ∧
         (∃ x, lookupKey cf "dataKey" = some (.str x)) ∧
         (∃ x, lookupKey cf "description" = some (.str x)))

/-- A concrete well-formed analysis document. -/
def exampleAnalysis : JValue :=
  .obj [("summary", .str "Sales trending up"),
        ("keyInsights", .arr [.str "Line A efficiency dropped"]),
        ("charts", .arr [.obj [("id", .str "c1"), ("title", .str "Sales by Customer"),
          ("type", .str "bar"), ("xAxisKey", .str "Customer"),
          ("dataKey", .str "Amount"), ("description", .str "Top customers")]])]

end Gemini

theorem strField_shape (fields : List (String × JValue)) (key : String)
    (h : Gemini.strField fields key = true) :
    ∃ x, lookupKey fields key = some (.str x) := by
  unfold Gemini.strField at h
  split at h
  · next x heq => exact ⟨x, heq⟩
  · cases h

theorem chartConforms_shape (c : JValue) (hc : Gemini.chartConforms c = true) :
    ∃ cf, c = .obj cf ∧
      (∃ x, lookupKey cf "id" = some (.str x)) ∧
      (∃ x, lookupKey cf "title" = some (.str x)) ∧
      (∃ ty, lookupKey cf "type" = some (.str ty) ∧ ty ∈ Gemini.chartTypes) ∧
      (∃ x, lookupKey cf "xAxisKey" = some (.str x)) ∧
      (∃ x, lookupKey cf "dataKey" = some (.str x)) ∧
      (∃ x, lookupKey cf "description" = some (.str x)) := by
  cases c with
  | obj cf =>
      simp only [Gemini.chartConforms, Bool.and_eq_true] at hc
      obtain ⟨⟨⟨⟨⟨h1, h2⟩, h3⟩, h4⟩, h5⟩, h6⟩ := hc
      refine ⟨cf, rfl, strField_shape cf "id" h1, strField_shape cf "title" h2, ?_,
        strField_shape cf "xAxisKey" h4, strField_shape cf "dataKey" h5,
        strField_shape cf "description" h6⟩
      split at h3
      · next ty heq => exact ⟨ty, heq, by simpa using h3⟩
      · cases h3
  | null => exact Bool.noConfusion hc
  | bool b => exact Bool.noConfusion hc
  | num n => exact Bool.noConfusion hc
  | str s => exact Bool.noConfusion hc
  | arr xs => exact Bool.noConfusion hc

/-- C7: a successful analysis result conforming to the response schema
sent with the request is a JSON object carrying a summary string, a list
of insight strings and chart descriptors with id, title, a chart type
drawn from {bar, line, area, pie, scatter, radar}, an x-axis key, a data
key and a description; a response with no text makes the call fail with
an error instead of returning a value. -/
theorem analysis_result_shape (v : JValue) (hv : Gemini.analysisConforms v = true) :
    Gemini.analysisShapeSpec v ∧
    (∀ w, Gemini.responseToResult (some w) = .ok w) ∧
    Gemini.responseToResult none = .error "No response generated from AI." := by
  refine ⟨?_, fun w => rfl, rfl⟩
  cases v with
  | obj fields =>
      simp only [Gemini.analysisConforms, Bool.and_eq_true] at hv
      obtain ⟨⟨h1, h2⟩, h3⟩ := hv
      refine ⟨fields, rfl, ?_, ?_, ?_⟩
      · split at h1
        · next s heq => exact ⟨s, heq⟩
        · cases h1
      · split at h2
        · next ks heq =>
            refine ⟨ks, heq, ?_⟩
            intro k hk
            have hsk := List.all_eq_true.mp h2 k hk
            cases k <;> first
              | exact ⟨_, rfl⟩
              | exact Bool.noConfusion hsk
        · cases h2
      · split at h3
        · next cs heq =>
            refine ⟨cs, heq, ?_⟩
            intro c hc
            exact chartConforms_shape c (List.all_eq_true.mp h3 c hc)
        · cases h3
  | null => exact Bool.noConfusion hv
  | bool b => exact Bool.noConfusion hv
  | num n => exact Bool.noConfusion hv
  | str s => exact Bool.noConfusion hv
  | arr xs => exact Bool.noConfusion hv

/-- Witness for C7 at a concrete conforming document. -/
theorem analysis_result_shape_witness :
    Gemini.analysisShapeSpec Gemini.exampleAnalysis ∧
    (∀ w, Gemini.responseToResult (some w) = .ok w) ∧
    Gemini.responseToResult none = .error "No response generated from AI." :=
  analysis_result_shape Gemini.exampleAnalysis (by rfl)

/-- C8: the prompt embeds only a bounded sample of the cleaned dataset —
the first 40 rows (the whole dataset when it has at most 40 rows, and a
strictly shorter prefix, never the full dataset, when it has more) —
together with the column headers taken from the first row. -/
theorem prompt_data_sampling (data : List ExcelDataRow) :
    (Gemini.dataSample data).length = min Gemini.sampleSize data.length ∧
    Gemini.dataSample data ++ data.drop Gemini.sampleSize = data ∧
    (data.length ≤ Gemini.sampleSize → Gemini.dataSample data = data) ∧
    (Gemini.sampleSize < data.length → (Gemini.dataSample data).length < data.length) ∧
    Gemini.headers data
      = String.intercalate ", " ((data.headD ([] : ExcelDataRow)).map Prod.fst) := by
  refine ⟨List.length_take _ _, List.take_append_drop _ _, ?_, ?_, ?_⟩
  · intro hle
    exact List.take_of_length_le hle
  · intro hlt
    unfold Gemini.dataSample
    rw [List.length_take]
    omega
  · unfold Gemini.headers Gemini.dataSample
    cases data with
    | nil => rfl
    | cons r rest => rfl

/-- A concrete parsed spreadsheet row. -/
def rowA : ExcelDataRow := [("Customer", .str "ACME"), ("Amount", .num 100)]

/-- Witness for C8: a one-row dataset is sent whole; a 41-row dataset is
strictly truncated. -/
theorem prompt_data_sampling_witness :
    Gemini.dataSample [rowA] = [rowA] ∧
    (Gemini.dataSample (List.replicate 41 rowA)).length < (List.replicate 41 rowA).length := by
  constructor
  · exact (prompt_data_sampling [rowA]).2.2.1 (by decide)
  · exact (prompt_data_sampling (List.replicate 41 rowA)).2.2.2.1 (by decide)

end ErpInsight
